import Mathlib

/-!
Shallow embedding of the heartbeat-mcp request dispatch and synthesis layer
(src/api.ts, src/helpers.ts, src/modes/dashboard.ts, src/modes/analytics.ts)
and proofs about it.

Conventions used throughout:
* machine time (`Date.now()`, ISO timestamps already parsed by `new Date(...).getTime()`)
  is an integer count of milliseconds (`Nat` for wall-clock instants in the cache,
  `Int` where the code subtracts);
* fallible HTTP calls are `Except` values; the network itself is an oracle
  passed in as an argument (the function or value describing what each HTTP
  attempt would return);
* TypeScript optional fields that the code defaults with `?? 0` / `?? []` are
  modelled as plain lists where the absent case coincides with the empty case.
-/

/-- Failure of one HTTP attempt: an error status response, or a transport-level
failure (timeout, connection error).  Mirrors the two shapes of `AxiosError`
the code distinguishes (`err.response?.status` present or not). -/
inductive HttpErr where
  | http (status : Nat)
  | transport
deriving DecidableEq

deriving instance DecidableEq for Except

/-- Observable trace of one `HeartbeatAPI.request` call: the final outcome, the
total number of HTTP attempts issued, and the list of back-off delays (in
milliseconds) slept between attempts. -/
structure ReqTrace (α : Type) where
  result : Except HttpErr α
  attempts : Nat
  delays : List Nat
deriving DecidableEq

/-- Embedding of `HeartbeatAPI.request` (src/api.ts).  `oracle k` is the outcome
of the k-th HTTP attempt (k starts at 0); `attempt` is the index of the next
attempt; `retries` is the remaining retry budget (the source starts it at 3).
On a 429 response with budget left the code sleeps `2 ^ (3 - retries) * 1000`
milliseconds and recurses with `retries - 1`; every other error is rethrown. -/
def requestAux (oracle : Nat → Except HttpErr α) : Nat → Nat → ReqTrace α
  | attempt, 0 =>
    match oracle attempt with
    | Except.ok a => ⟨Except.ok a, attempt + 1, []⟩
    | Except.error e => ⟨Except.error e, attempt + 1, []⟩
  | attempt, Nat.succ r =>
    match oracle attempt with
    | Except.ok a => ⟨Except.ok a, attempt + 1, []⟩
    | Except.error e =>
      if e = HttpErr.http 429 then
        let rest := requestAux oracle (attempt + 1) r
        ⟨rest.result, rest.attempts, (2 ^ (3 - (r + 1)) * 1000) :: rest.delays⟩
      else ⟨Except.error e, attempt + 1, []⟩

/-- Embedding of a `HeartbeatAPI.request` call as issued by the verb helpers:
the retry budget starts at its default value 3. -/
def request (oracle : Nat → Except HttpErr α) : ReqTrace α :=
  requestAux oracle 0 3

/-- One cache slot (src/api.ts `CacheEntry`): the cached payload and its
absolute expiry instant in milliseconds. -/
structure CacheEntry (α : Type) where
  data : α
  expires : Nat
deriving DecidableEq

/-- State of a `HeartbeatAPI` instance: the cache (a JS `Map`, i.e. an
insertion-ordered association list keyed by the cache key) and the TTL fixed
by the constructor. -/
structure APIState (α : Type) where
  cache : List (String × CacheEntry α)
  cacheTTL : Nat
deriving DecidableEq

/-- Default `cacheTTL` of the `HeartbeatAPI` constructor (60_000 ms). -/
def defaultCacheTTL : Nat := 60000

/-- A freshly constructed `HeartbeatAPI`: empty cache, TTL as given. -/
def APIState.new (α : Type) (cacheTTL : Nat) : APIState α := ⟨[], cacheTTL⟩

/-- JS `Map.get`: first (and only) binding of the key, if any. -/
def mapGet : List (String × CacheEntry α) → String → Option (CacheEntry α)
  | [], _ => none
  | kv :: rest, k => if kv.fst == k then some kv.snd else mapGet rest k

/-- JS `Map.set`: replace the binding in place if the key is present, else
append at the end (JS `Map` preserves insertion order). -/
def mapSet : List (String × CacheEntry α) → String → CacheEntry α → List (String × CacheEntry α)
  | [], k, v => [(k, v)]
  | kv :: rest, k, v => if kv.fst == k then (k, v) :: rest else kv :: mapSet rest k v

/-- Embedding of `HeartbeatAPI.cacheKey`: `qs` stands for the JSON
serialization of the query-params object (the serialization of the empty
object when the caller passed none). -/
def cacheKey (method path qs : String) : String :=
  method ++ ":" ++ path ++ ":" ++ qs

/-- Lazy eviction step of `HeartbeatAPI.get`: when the cache holds more than
1000 entries, drop every entry whose expiry is not in the future. -/
def pruneExpired (cache : List (String × CacheEntry α)) (now : Nat) : List (String × CacheEntry α) :=
  if cache.length > 1000 then cache.filter (fun kv => decide (now < kv.snd.expires)) else cache

/-- Observable outcome of one `HeartbeatAPI.get` call: the returned value (or
propagated error), the state after the call, and whether a network request was
issued. -/
structure GetResult (α : Type) where
  result : Except HttpErr α
  state : APIState α
  networkIssued : Bool
deriving DecidableEq

/-- Cache-miss path of `HeartbeatAPI.get`: prune if oversized, issue the
network request (whose final outcome after retries is `net`), and on success
store the payload with expiry `t1 + cacheTTL` where `t1` is `Date.now()` at
store time.  A failed request stores nothing and propagates. -/
def APIState.getMiss (s : APIState α) (key : String) (t0 : Nat)
    (net : Except HttpErr α) (t1 : Nat) : GetResult α :=
  let pruned := pruneExpired s.cache t0
  match net with
  | Except.ok a => ⟨Except.ok a, ⟨mapSet pruned key ⟨a, t1 + s.cacheTTL⟩, s.cacheTTL⟩, true⟩
  | Except.error e => ⟨Except.error e, ⟨pruned, s.cacheTTL⟩, true⟩

/-- Embedding of `HeartbeatAPI.get` (src/api.ts).  `t0` is `Date.now()` at the
cache check (also used by the pruning sweep), `net` is the outcome the network
would produce for this call, `t1` is `Date.now()` when the response is stored.
A cached entry is served as-is iff its expiry is strictly in the future. -/
def APIState.get (s : APIState α) (path qs : String) (t0 : Nat)
    (net : Except HttpErr α) (t1 : Nat) : GetResult α :=
  match mapGet s.cache (cacheKey "GET" path qs) with
  | some entry =>
    if t0 < entry.expires then ⟨Except.ok entry.data, s, false⟩
    else APIState.getMiss s (cacheKey "GET" path qs) t0 net t1
  | none => APIState.getMiss s (cacheKey "GET" path qs) t0 net t1

/-- Embedding of `HeartbeatAPI.put`: clear the whole cache, then issue the
request (whose retry-resolved outcome is `net`) without any cache involvement. -/
def APIState.put (s : APIState α) (net : Except HttpErr α) : Except HttpErr α × APIState α :=
  (net, ⟨[], s.cacheTTL⟩)

/-- Embedding of `HeartbeatAPI.post`: identical cache behaviour to `put`. -/
def APIState.post (s : APIState α) (net : Except HttpErr α) : Except HttpErr α × APIState α :=
  (net, ⟨[], s.cacheTTL⟩)

/-- Embedding of `HeartbeatAPI.delete`: identical cache behaviour to `put`. -/
def APIState.delete (s : APIState α) (net : Except HttpErr α) : Except HttpErr α × APIState α :=
  (net, ⟨[], s.cacheTTL⟩)

/-- Hexadecimal digit test matching the character classes of the source UUID
regular expression `[0-9a-f]` under its case-insensitive flag. -/
def isHexDigit (c : Char) : Bool :=
  (decide ('0' ≤ c) && decide (c ≤ '9')) ||
  (decide ('a' ≤ c) && decide (c ≤ 'f')) ||
  (decide ('A' ≤ c) && decide (c ≤ 'F'))

/-- Embedding of `UUID_RE.test` (src/helpers.ts): 36 characters in the
8-4-4-4-12 hyphenated hexadecimal layout, case-insensitively. -/
def isUUID (s : String) : Bool :=
  let cs := s.data
  cs.length == 36 &&
  (List.range 36).all (fun i =>
    if i == 8 || i == 13 || i == 18 || i == 23 then cs.getD i ' ' == '-'
    else isHexDigit (cs.getD i ' '))

/-- Contiguous-occurrence test on lists (used to model JS substring search). -/
def listContainsSeq [BEq a] (needle : List a) : List a → Bool
  | [] => needle.isEmpty
  | x :: xs => needle.isPrefixOf (x :: xs) || listContainsSeq needle xs

/-- JS `hay.includes(needle)`: substring containment. -/
def strIncludes (hay needle : String) : Bool :=
  listContainsSeq needle.data hay.data

/-- JS `String.prototype.toLowerCase()` restricted to the ASCII range the
resolver relies on (per-character lowercasing). -/
def strToLower (s : String) : String :=
  String.mk (s.data.map Char.toLower)

/-- JS `Array.prototype.join(", ")`. -/
def joinComma : List String → String
  | [] => ""
  | [x] => x
  | x :: y :: xs => x ++ ", " ++ joinComma (y :: xs)

/-- Channel record: the fields of `HBChannel` the resolver reads. -/
structure HBChannel where
  id : String
  name : String
deriving DecidableEq

/-- Error message thrown by `resolveChannel` when no exact match exists; it
carries the substring-match suggestions, falling back to listing all channel
names when the suggestion list is empty (JS truthiness of `similar.length`). -/
def channelNotFoundMsg (nameOrId : String) (similar allNames : List String) : String :=
  "No channel named \"" ++ nameOrId ++ "\". " ++
    (if similar.length == 0 then "Available: " ++ joinComma allNames
     else "Did you mean: " ++ joinComma similar ++ "?")

/-- Embedding of `resolveChannel` (src/helpers.ts).  `channels` is what
`api.get("/channels")` would return; the second component records whether that
fetch was issued.  A UUID-shaped input is returned unchanged without fetching;
otherwise the first case-insensitive exact name match wins, and failing that a
`NotFound` error is thrown carrying substring-match suggestions. -/
def resolveChannel (channels : List HBChannel) (nameOrId : String) :
    Except String String × Bool :=
  if isUUID nameOrId then (Except.ok nameOrId, false)
  else
    match channels.find? (fun c => strToLower c.name == strToLower nameOrId) with
    | some c => (Except.ok c.id, true)
    | none =>
      (Except.error (channelNotFoundMsg nameOrId
        ((channels.filter (fun c => strIncludes (strToLower c.name) (strToLower nameOrId))).map
          HBChannel.name)
        (channels.map HBChannel.name)), true)

/-- One completed-lesson record of a user. -/
structure CompletedLesson where
  lessonID : String
  timestamp : String
deriving DecidableEq

/-- User record: the fields of `HBUser` the core reads.  The optional
`completedLessons` and `groupIDs` fields are modelled as plain lists (absent
treated as empty, matching the `?? 0` / `?? []` defaulting at every use
site); unused optional profile fields are omitted. -/
structure HBUser where
  id : String
  email : String
  name : String
  roleID : String
  groupIDs : List String
  completedLessons : List CompletedLesson
deriving DecidableEq

/-- One upstream fetch issued by `resolveUser`: a direct fetch by identifier
(`GET /users/{id}`), an exact-match email lookup (`GET /find/users?email=`),
or the full user list (`GET /users`). -/
inductive UserFetch where
  | byId (id : String)
  | byEmail (email : String)
  | userList
deriving DecidableEq

/-- The upstream data `resolveUser` can consult: the outcome of a direct fetch
for each id, the result list of the email lookup for each email, and the full
user list. -/
structure UserDirectory where
  fetchById : String → Except String HBUser
  findByEmail : String → List HBUser
  allUsers : List HBUser

/-- Error message of `resolveUser` when the email lookup returns no results. -/
def userNotFoundEmailMsg (s : String) : String :=
  "No user found with email \"" ++ s ++ "\""

/-- Error message of `resolveUser` when the name filter returns no matches. -/
def userNotFoundNameMsg (s : String) : String :=
  "No user found matching \"" ++ s ++ "\""

/-- Error message of `resolveUser` when several users match a name search:
every candidate is listed as `name (email)`. -/
def userAmbiguousMsg (s : String) (ms : List HBUser) : String :=
  "Multiple users match \"" ++ s ++ "\": " ++
    joinComma (ms.map (fun u => u.name ++ " (" ++ u.email ++ ")")) ++
    ". Be more specific or use email/ID."

/-- Embedding of `resolveUser` (src/helpers.ts).  The second component is the
list of upstream fetches the call issues.  UUID-shaped inputs go through a
single direct fetch; inputs containing `@` use the email lookup (first result
returned, empty list is `NotFound`); anything else filters the full user list
by case-insensitive substring match on the name, with zero matches `NotFound`,
one match returned, and several matches an `Ambiguous` failure. -/
def resolveUser (dir : UserDirectory) (s : String) : Except String HBUser × List UserFetch :=
  if isUUID s then (dir.fetchById s, [UserFetch.byId s])
  else if s.data.contains '@' then
    match dir.findByEmail s with
    | [] => (Except.error (userNotFoundEmailMsg s), [UserFetch.byEmail s])
    | u :: _ => (Except.ok u, [UserFetch.byEmail s])
  else
    match dir.allUsers.filter (fun u => strIncludes (strToLower u.name) (strToLower s)) with
    | [] => (Except.error (userNotFoundNameMsg s), [UserFetch.userList])
    | [u] => (Except.ok u, [UserFetch.userList])
    | u :: v :: rest => (Except.error (userAmbiguousMsg s (u :: v :: rest)), [UserFetch.userList])

/-- Example user for concrete evaluations (the spec scenario for ambiguity). -/
def alexChen : HBUser :=
  ⟨"aaaaaaaa-0000-0000-0000-000000000001", "alex.chen@example.com", "Alex Chen", "admin", [], []⟩

/-- Second example user whose name shares the substring "Alex". -/
def alexRivera : HBUser :=
  ⟨"aaaaaaaa-0000-0000-0000-000000000002", "alex.rivera@example.com", "Alex Rivera", "member",
   [], []⟩

/-- Example upstream directory serving the two example users. -/
def alexDir : UserDirectory :=
  ⟨fun _ => Except.error "404",
   fun e => if e == "alex.chen@example.com" then [alexChen] else [],
   [alexChen, alexRivera]⟩

/-- Stable insertion step: place `x` before the first element `y` with
`le x y`, keeping earlier elements of equal rank in front. -/
def insertSorted (le : a → a → Bool) (x : a) : List a → List a
  | [] => [x]
  | y :: ys => if le x y then x :: y :: ys else y :: insertSorted le x ys

/-- JS `Array.prototype.sort` with a consistent comparator is a stable sort
(mandated since ES2019); its result is uniquely determined and computed here
by stable insertion sort.  `le p q` holds when the comparator orders `p`
at-or-before `q`. -/
def stableSortBy (le : a → a → Bool) : List a → List a
  | [] => []
  | x :: xs => insertSorted le x (stableSortBy le xs)

/-- Thread record: the fields of `HBThread` the synthesis modes read.
`createdAt` is the parsed timestamp (`new Date(t.createdAt).getTime()`). -/
structure HBThread where
  id : String
  text : String
  channelID : String
  userID : String
  createdAt : Int
deriving DecidableEq

/-- Thirty days in milliseconds, the recent-activity window. -/
def thirtyDaysMs : Int := 30 * 24 * 60 * 60 * 1000

/-- Seven days in milliseconds, the dashboard recent-thread window. -/
def sevenDaysMs : Int := 7 * 24 * 60 * 60 * 1000

/-- Membership in the `recentThreadAuthors` set of the analytics and dashboard
modes: the user authored some fetched thread created within the last 30 days. -/
def hasRecentThreadActivity (now : Int) (threads : List HBThread) (uid : String) : Bool :=
  threads.any (fun t => t.userID == uid && decide (now - thirtyDaysMs < t.createdAt))

/-- Membership in the `allThreadAuthors` set: the user authored some fetched
thread (of any age). -/
def hasAnyThreadActivity (threads : List HBThread) (uid : String) : Bool :=
  threads.any (fun t => t.userID == uid)

/-- The four buckets of the `member_segments` metric. -/
inductive Segment where
  | new_members
  | active
  | at_risk
  | churned
deriving DecidableEq

/-- Embedding of the bucket assignment of the `member_segments` metric
(src/modes/analytics.ts): the exact branch structure of the per-user loop,
with `threads` the aggregated thread pool of `fetchAllThreads(api, 5)`. -/
def segmentOf (now : Int) (threads : List HBThread) (u : HBUser) : Segment :=
  let lessonsCount := u.completedLessons.length
  let groupsCount := u.groupIDs.length
  let hasRecent := hasRecentThreadActivity now threads u.id
  let hasAny := hasAnyThreadActivity threads u.id
  if decide (0 < lessonsCount) || hasRecent then
    if decide (0 < lessonsCount) && !hasRecent && !hasAny then Segment.at_risk
    else Segment.active
  else if decide (lessonsCount = 0) && decide (0 < groupsCount) then Segment.new_members
  else Segment.churned

/-- Users pushed into the array of segment `s` by the `member_segments` loop,
in input order (the response then projects fields from these and truncates
each list to the caller limit; the reported counts are the lengths of the
untruncated lists). -/
def segmentUsers (now : Int) (threads : List HBThread) (users : List HBUser)
    (s : Segment) : List HBUser :=
  users.filter (fun u => segmentOf now threads u == s)

/-- One row of the `engagement_scores` metric output. -/
structure ScoredUser where
  id : String
  name : String
  email : String
  threads_authored : Nat
  lessons_completed : Nat
  events_attended : Nat
  groups : Nat
  score : Nat
deriving DecidableEq

/-- Threads authored by `uid` in the aggregated thread pool (the incremental
`threadCounts` map of the metric, read off per user). -/
def threadsAuthoredCount (threads : List HBThread) (uid : String) : Nat :=
  (threads.filter (fun t => t.userID == uid)).length

/-- Events attended by `uid`: `attendance` holds, per event that responded,
the attendee user ids as extracted by `a.userID ?? a.user_id ?? a.id` (`none`
when no usable id was present, in which case the record is skipped); events
whose attendance fetch failed contribute no inner list. -/
def eventsAttendedCount (attendance : List (List (Option String))) (uid : String) : Nat :=
  (attendance.map (fun ev => (ev.filter (fun r => r == some uid)).length)).sum

/-- Embedding of the per-user scoring of the `engagement_scores` metric:
`score = threads_authored * 3 + lessons_completed * 2 + events_attended * 5`. -/
def scoreUser (threads : List HBThread) (attendance : List (List (Option String)))
    (u : HBUser) : ScoredUser :=
  let ta := threadsAuthoredCount threads u.id
  let lc := u.completedLessons.length
  let ea := eventsAttendedCount attendance u.id
  ⟨u.id, u.name, u.email, ta, lc, ea, u.groupIDs.length, ta * 3 + lc * 2 + ea * 5⟩

/-- The `scored` array of the metric: every fetched user, scored. -/
def engagementScored (users : List HBUser) (threads : List HBThread)
    (attendance : List (List (Option String))) : List ScoredUser :=
  users.map (scoreUser threads attendance)

/-- Default output limit (`params.limit ?? 20`). -/
def defaultLimit : Nat := 20

/-- Comparator of `scored.sort((a, b) => b.score - a.score)`: `p` stays
at-or-before `q` when the comparator is non-positive there. -/
def scoreDescLe (p q : ScoredUser) : Bool := decide (q.score ≤ p.score)

/-- The `top` field of the `engagement_scores` response: sort all scored users
descending by score, then apply the caller limit. -/
def engagementTop (users : List HBUser) (threads : List HBThread)
    (attendance : List (List (Option String))) (limit : Option Nat) : List ScoredUser :=
  (stableSortBy scoreDescLe (engagementScored users threads attendance)).take
    (limit.getD defaultLimit)

/-- Scan for the first `>` and return the remainder after it, if any: the
extent of one match of the tag pattern `<[^>]*>` starting at a `<`. -/
def dropThroughGt : List Char → Option (List Char)
  | [] => none
  | c :: cs => if c == '>' then some cs else dropThroughGt cs

/-- Global replacement of the tag pattern `<[^>]*>` by nothing, as a fuelled
left-to-right scan (fuel bounds the number of steps; one character is consumed
per step, so fuel equal to the input length suffices).  A `<` with no later
`>` matches nothing and is kept, as under the regular expression. -/
def stripTagsFuel : Nat → List Char → List Char
  | 0, cs => cs
  | _ + 1, [] => []
  | n + 1, c :: cs =>
    if c == '<' then
      match dropThroughGt cs with
      | some rest => stripTagsFuel n rest
      | none => c :: stripTagsFuel n cs
    else c :: stripTagsFuel n cs

/-- Default preview truncation length of `stripHtml`. -/
def defaultPreviewLen : Nat := 150

/-- Embedding of `stripHtml` (src/helpers.ts): remove tags, trim, and truncate
to `maxLen` characters with an ellipsis marker when over the limit. -/
def stripHtml (html : String) (maxLen : Nat) : String :=
  let text := (String.mk (stripTagsFuel html.data.length html.data)).trim
  if maxLen < text.data.length then String.mk (text.data.take maxLen) ++ "..." else text

/-- Embedding of `timeAgo` (src/helpers.ts): bucket the elapsed time into
minutes, hours or days, always rounding down (`Math.floor` = flooring
division). -/
def timeAgo (now createdAt : Int) : String :=
  let diff := now - createdAt
  let mins := Int.fdiv diff 60000
  if mins < 60 then toString mins ++ "m ago"
  else
    let hours := Int.fdiv mins 60
    if hours < 24 then toString hours ++ "h ago"
    else toString (Int.fdiv hours 24) ++ "d ago"

/-- Lookup in the dashboard's `userMap` (a JS `Map` built from the user list,
later entries overwriting earlier ones) with the `?? t.userID` fallback. -/
def userMapGet (users : List HBUser) (uid : String) : String :=
  match users.reverse.find? (fun u => u.id == uid) with
  | some u => u.name
  | none => uid

/-- One element of the dashboard's `channelThreads` array: channel name,
channel id, and that channel's fetched threads (empty when the fetch threw). -/
structure ChannelThreadsEntry where
  channel : String
  channelID : String
  threads : List HBThread
deriving DecidableEq

/-- The entry produced for one channel by the dashboard's thread fan-out: the
try/catch around `api.get` turns a failing fetch into an empty thread list. -/
def channelThreadsEntryOf (fetch : String → Except String (List HBThread))
    (ch : HBChannel) : ChannelThreadsEntry :=
  match fetch ch.id with
  | Except.ok ts => ⟨ch.name, ch.id, ts⟩
  | Except.error _ => ⟨ch.name, ch.id, []⟩

/-- Embedding of the per-channel thread fan-out of `handleDashboard`
(src/modes/dashboard.ts): the first 10 channels are fetched, and a failing
fetch yields an empty thread list for that channel instead of aborting. -/
def channelThreadsOf (fetch : String → Except String (List HBThread))
    (channels : List HBChannel) : List ChannelThreadsEntry :=
  (channels.take 10).map (channelThreadsEntryOf fetch)

/-- A thread tagged with the name of the channel it came from
(`{ ...t, channelName: ct.channel }`). -/
structure TaggedThread where
  thread : HBThread
  channelName : String
deriving DecidableEq

/-- The dashboard's flattened `allThreads` pool before sorting and slicing. -/
def dashboardThreadPool (fetch : String → Except String (List HBThread))
    (channels : List HBChannel) : List TaggedThread :=
  (channelThreadsOf fetch channels).flatMap (fun ct => ct.threads.map (fun t => ⟨t, ct.channel⟩))

/-- Comparator of `.sort((a, b) => new Date(b.createdAt) - new Date(a.createdAt))`. -/
def createdDescLe (p q : TaggedThread) : Bool :=
  decide (q.thread.createdAt ≤ p.thread.createdAt)

/-- The dashboard's `allThreads`: the pool sorted descending by creation time,
top 10. -/
def dashboardRecentThreads (fetch : String → Except String (List HBThread))
    (channels : List HBChannel) : List TaggedThread :=
  (stableSortBy createdDescLe (dashboardThreadPool fetch channels)).take 10

/-- One `recent_activity` row of the dashboard payload. -/
structure ActivityEntry where
  channel : String
  author : String
  preview : String
  age : String
  thread_id : String
deriving DecidableEq

/-- The dashboard's `recent_activity` field. -/
def recentActivityOf (now : Int) (users : List HBUser)
    (fetch : String → Except String (List HBThread)) (channels : List HBChannel) :
    List ActivityEntry :=
  (dashboardRecentThreads fetch channels).map (fun x =>
    ⟨x.channelName, userMapGet users x.thread.userID,
     stripHtml x.thread.text defaultPreviewLen, timeAgo now x.thread.createdAt, x.thread.id⟩)

/-- One `needs_attention` row of the dashboard payload (the three record
shapes the code pushes, discriminated by their `type` field). -/
inductive AttentionEntry where
  | recent_thread (channel author preview age thread_id : String)
  | new_member (name email : String) (groups : Nat) (user_id : String)
  | at_risk (name email : String) (lessons_completed : Nat) (had_thread_activity : Bool)
      (user_id : String)
deriving DecidableEq

/-- The `recent_thread` rows: threads of the last 7 days, in channel-then-
thread order. -/
def recentThreadEntries (now : Int) (users : List HBUser)
    (cts : List ChannelThreadsEntry) : List AttentionEntry :=
  cts.flatMap (fun ct =>
    (ct.threads.filter (fun t => decide (now - sevenDaysMs < t.createdAt))).map (fun t =>
      AttentionEntry.recent_thread ct.channel (userMapGet users t.userID)
        (stripHtml t.text defaultPreviewLen) (timeAgo now t.createdAt) t.id))

/-- The dashboard's `newMembers`: users with no completed lessons. -/
def newMembersOf (users : List HBUser) : List HBUser :=
  users.filter (fun u => u.completedLessons.isEmpty)

/-- The `new_member` rows: the first 5 new members. -/
def newMemberEntries (users : List HBUser) : List AttentionEntry :=
  ((newMembersOf users).take 5).map (fun u =>
    AttentionEntry.new_member u.name u.email u.groupIDs.length u.id)

/-- All threads of the fetched per-channel entries, concatenated (the basis of
the author sets the dashboard builds). -/
def poolThreads (cts : List ChannelThreadsEntry) : List HBThread :=
  cts.flatMap ChannelThreadsEntry.threads

/-- The dashboard's `atRiskMembers` rows: users with some lifetime activity
signal (a completed lesson or any thread authorship) but no thread authored in
the last 30 days. -/
def atRiskEntriesOf (now : Int) (users : List HBUser)
    (cts : List ChannelThreadsEntry) : List AttentionEntry :=
  (users.filter (fun u =>
      (decide (0 < u.completedLessons.length) ||
        hasAnyThreadActivity (poolThreads cts) u.id) &&
      !(hasRecentThreadActivity now (poolThreads cts) u.id))).map (fun u =>
    AttentionEntry.at_risk u.name u.email u.completedLessons.length
      (hasAnyThreadActivity (poolThreads cts) u.id) u.id)

/-- Event record: the fields of an upstream event the dashboard reads. -/
structure HBEvent where
  name : String
  startTime : Int
  duration : Int
  location : Option String
  invitedUsers : Option (List String)
  invitedGroups : Option (List String)
deriving DecidableEq

/-- Comparator of the ascending start-time sort of upcoming events. -/
def startAscLe (p q : HBEvent) : Bool := decide (p.startTime ≤ q.startTime)

/-- The dashboard's `upcomingEvents`: future events sorted ascending by start
time, top 5. -/
def upcomingEventsOf (now : Int) (events : List HBEvent) : List HBEvent :=
  (stableSortBy startAscLe (events.filter (fun e => decide (now < e.startTime)))).take 5

/-- One `upcoming_events` row of the dashboard payload. -/
structure UpcomingEventEntry where
  name : String
  start : Int
  duration : Int
  location : Option String
  invited_users_count : Option Nat
  invited_groups_count : Option Nat
  rsvp_note : String
deriving DecidableEq

/-- The fixed `rsvp_note` string attached to each upcoming event. -/
def rsvpNote : String :=
  "Full RSVP data requires per-event attendance fetch (mode: events, action: attendance)"

/-- The `summary` block of the dashboard payload. -/
structure DashboardSummary where
  total_members : Nat
  new_members : Nat
  at_risk_members : Nat
  active_channels : Nat
  upcoming_events : Nat
  courses_available : Nat
  total_recent_threads : Nat
deriving DecidableEq

/-- The full dashboard payload. -/
structure DashboardResult where
  summary : DashboardSummary
  needs_attention : List AttentionEntry
  recent_activity : List ActivityEntry
  upcoming_events : List UpcomingEventEntry
  notifications : List String
deriving DecidableEq

/-- Embedding of `handleDashboard` (src/modes/dashboard.ts) given the already
fetched top-level collections (users, channels, events, the course count, the
notifications list — only their lengths or prefixes are used) and the
per-channel thread fetch oracle.  The function is total: per-channel fetch
failures are absorbed as empty thread lists, so the mode always produces a
payload. -/
def handleDashboard (now : Int) (users : List HBUser) (channels : List HBChannel)
    (events : List HBEvent) (coursesCount : Nat) (notifications : List String)
    (fetch : String → Except String (List HBThread)) : DashboardResult :=
  let cts := channelThreadsOf fetch channels
  let atRisk := atRiskEntriesOf now users cts
  let upcoming := upcomingEventsOf now events
  let recent := dashboardRecentThreads fetch channels
  ⟨⟨users.length, (newMembersOf users).length, atRisk.length, channels.length,
    upcoming.length, coursesCount, recent.length⟩,
   (recentThreadEntries now users cts ++ newMemberEntries users ++ atRisk.take 5).take 15,
   recentActivityOf now users fetch channels,
   upcoming.map (fun e =>
     ⟨e.name, e.startTime, e.duration, e.location, e.invitedUsers.map List.length,
      e.invitedGroups.map List.length, rsvpNote⟩),
   notifications.take 5⟩

/-- Example channels for the unreachable-channel scenario. -/
def demoChannels : List HBChannel :=
  [⟨"chan-A", "Alpha"⟩, ⟨"chan-B", "Beta"⟩, ⟨"chan-C", "Gamma"⟩]

/-- Example thread in channel A. -/
def demoThreadA : HBThread := ⟨"tA", "hello from A", "chan-A", "user-1", 9999999999000⟩

/-- Example thread in channel C. -/
def demoThreadC : HBThread := ⟨"tC", "hello from C", "chan-C", "user-2", 9999999998000⟩

/-- Example thread fetch oracle: channel B's fetch throws, A and C succeed. -/
def demoFetch : String → Except String (List HBThread) := fun cid =>
  if cid == "chan-A" then Except.ok [demoThreadA]
  else if cid == "chan-C" then Except.ok [demoThreadC]
  else Except.error "forbidden"

theorem mapGet_mapSet_self (m : List (String × CacheEntry α)) (k : String) (v : CacheEntry α) :
    mapGet (mapSet m k v) k = some v := by
  induction m with
  | nil => simp [mapGet, mapSet]
  | cons kv rest ih =>
    by_cases h : kv.fst == k
    · simp [mapGet, mapSet, h]
    · simp only [mapSet, h, Bool.false_eq_true, if_false, mapGet, ih]

theorem request_all_429 (oracle : Nat → Except HttpErr α)
    (h : ∀ k, oracle k = Except.error (HttpErr.http 429)) :
    request oracle = ⟨Except.error (HttpErr.http 429), 4, [1000, 2000, 4000]⟩ := by
  simp [request, requestAux, h]

theorem request_non_429 (oracle : Nat → Except HttpErr α) (e : HttpErr)
    (h0 : oracle 0 = Except.error e) (hne : e ≠ HttpErr.http 429) :
    request oracle = ⟨Except.error e, 1, []⟩ := by
  simp [request, requestAux, h0, hne]

theorem get_fresh_hit (s : APIState α) (path qs : String) (t0 t1 : Nat)
    (net : Except HttpErr α) (entry : CacheEntry α)
    (he : mapGet s.cache (cacheKey "GET" path qs) = some entry) (hlt : t0 < entry.expires) :
    APIState.get s path qs t0 net t1 = ⟨Except.ok entry.data, s, false⟩ := by
  simp [APIState.get, he, hlt]

theorem get_store (s : APIState α) (path qs : String) (t0 t1 : Nat) (a : α)
    (hmiss : mapGet s.cache (cacheKey "GET" path qs) = none ∨
      ∃ entry, mapGet s.cache (cacheKey "GET" path qs) = some entry ∧ entry.expires ≤ t0) :
    APIState.get s path qs t0 (Except.ok a) t1 =
      ⟨Except.ok a,
       ⟨mapSet (pruneExpired s.cache t0) (cacheKey "GET" path qs) ⟨a, t1 + s.cacheTTL⟩,
        s.cacheTTL⟩, true⟩ := by
  rcases hmiss with hnone | ⟨entry, he, hle⟩
  · simp [APIState.get, hnone, APIState.getMiss]
  · simp [APIState.get, he, Nat.not_lt.mpr hle, APIState.getMiss]

theorem get_on_empty_networkIssued (ttl : Nat) (path qs : String) (t0 t1 : Nat)
    (net : Except HttpErr α) :
    (APIState.get (⟨[], ttl⟩ : APIState α) path qs t0 net t1).networkIssued = true := by
  cases net <;> rfl

/-- C1: only HTTP 429 responses are retried: a request that receives 429 on
every attempt makes 4 total attempts (3 retries) with delays of 1s, 2s and 4s
(in ms) before the second, third and fourth attempts, and the 429 error then
propagates; a first attempt failing with any non-429 error (other statuses or
a transport failure such as a timeout) propagates immediately with a single
attempt and no delay. -/
theorem transport_retry_only_429 (oracle : Nat → Except HttpErr α) :
    ((∀ k, oracle k = Except.error (HttpErr.http 429)) →
      request oracle = ⟨Except.error (HttpErr.http 429), 4, [1000, 2000, 4000]⟩) ∧
    (∀ e, oracle 0 = Except.error e → e ≠ HttpErr.http 429 →
      request oracle = ⟨Except.error e, 1, []⟩) :=
  ⟨request_all_429 oracle, fun e h0 hne => request_non_429 oracle e h0 hne⟩

theorem transport_retry_only_429_witness :
    request (fun _ => (Except.error (HttpErr.http 429) : Except HttpErr Nat)) =
      ⟨Except.error (HttpErr.http 429), 4, [1000, 2000, 4000]⟩ ∧
    request (fun _ => (Except.error HttpErr.transport : Except HttpErr Nat)) =
      ⟨Except.error HttpErr.transport, 1, []⟩ :=
  ⟨(transport_retry_only_429 (fun _ => Except.error (HttpErr.http 429))).1 (fun _ => rfl),
   (transport_retry_only_429 (fun _ => Except.error HttpErr.transport)).2
     HttpErr.transport rfl (by decide)⟩

/-- C2: a GET served while a cache entry for the same (method, path,
serialized query) is unexpired returns the cached payload with no network
request and no state change; a GET with no entry or an expired entry issues a
network request and stores the successful response under the key with absolute
expiry `now + ttl`; a second GET before that expiry returns the stored payload
with no network request; the TTL is fixed at construction (default 60s). -/
theorem transport_cache_ttl (s : APIState α) (path qs : String)
    (t0 t1 t2 t3 : Nat) (net net2 : Except HttpErr α) (a : α) :
    (∀ entry, mapGet s.cache (cacheKey "GET" path qs) = some entry → t0 < entry.expires →
      APIState.get s path qs t0 net t1 = ⟨Except.ok entry.data, s, false⟩) ∧
    ((mapGet s.cache (cacheKey "GET" path qs) = none ∨
      ∃ entry, mapGet s.cache (cacheKey "GET" path qs) = some entry ∧ entry.expires ≤ t0) →
      (APIState.get s path qs t0 (Except.ok a) t1).networkIssued = true ∧
      mapGet (APIState.get s path qs t0 (Except.ok a) t1).state.cache (cacheKey "GET" path qs) =
        some ⟨a, t1 + s.cacheTTL⟩ ∧
      (t2 < t1 + s.cacheTTL →
        APIState.get (APIState.get s path qs t0 (Except.ok a) t1).state path qs t2 net2 t3 =
          ⟨Except.ok a, (APIState.get s path qs t0 (Except.ok a) t1).state, false⟩)) ∧
    (APIState.get s path qs t0 net t1).state.cacheTTL = s.cacheTTL ∧
    defaultCacheTTL = 60000 := by
  refine ⟨fun entry he hlt => get_fresh_hit s path qs t0 t1 net entry he hlt, fun hmiss => ?_, ?_, rfl⟩
  · rw [get_store s path qs t0 t1 a hmiss]
    refine ⟨rfl, mapGet_mapSet_self _ _ _, fun ht2 => ?_⟩
    exact get_fresh_hit _ path qs t2 t3 net2 ⟨a, t1 + s.cacheTTL⟩ (mapGet_mapSet_self _ _ _) ht2
  · unfold APIState.get APIState.getMiss
    split
    · split
      · rfl
      · cases net <;> rfl
    · cases net <;> rfl

theorem transport_cache_ttl_witness :
    mapGet (APIState.get (⟨[], 60000⟩ : APIState Nat) "/users" "qs" 5
        (Except.ok 7) 10).state.cache (cacheKey "GET" "/users" "qs") = some ⟨7, 60010⟩ ∧
    APIState.get (APIState.get (⟨[], 60000⟩ : APIState Nat) "/users" "qs" 5
        (Except.ok 7) 10).state "/users" "qs" 30 (Except.ok 8) 31 =
      ⟨Except.ok 7,
       (APIState.get (⟨[], 60000⟩ : APIState Nat) "/users" "qs" 5 (Except.ok 7) 10).state,
       false⟩ :=
  ⟨((transport_cache_ttl (⟨[], 60000⟩ : APIState Nat) "/users" "qs" 5 10 30 31
      (Except.ok 7) (Except.ok 8) 7).2.1 (Or.inl rfl)).2.1,
   ((transport_cache_ttl (⟨[], 60000⟩ : APIState Nat) "/users" "qs" 5 10 30 31
      (Except.ok 7) (Except.ok 8) 7).2.1 (Or.inl rfl)).2.2 (by decide)⟩

/-- C3: every mutating call (put, post, delete) propagates the request outcome
untouched by the cache and leaves the cache entirely cleared, so a following
GET on any (path, query) finds no cached entry and issues a network request. -/
theorem transport_mutation_clears_cache (s : APIState α) (net net2 : Except HttpErr α)
    (path qs : String) (t0 t1 : Nat) :
    (APIState.put s net).fst = net ∧ (APIState.put s net).snd.cache = [] ∧
    (APIState.post s net).fst = net ∧ (APIState.post s net).snd.cache = [] ∧
    (APIState.delete s net).fst = net ∧ (APIState.delete s net).snd.cache = [] ∧
    mapGet (APIState.put s net).snd.cache (cacheKey "GET" path qs) = none ∧
    (APIState.get (APIState.put s net).snd path qs t0 net2 t1).networkIssued = true ∧
    (APIState.get (APIState.post s net).snd path qs t0 net2 t1).networkIssued = true ∧
    (APIState.get (APIState.delete s net).snd path qs t0 net2 t1).networkIssued = true :=
  ⟨rfl, rfl, rfl, rfl, rfl, rfl, rfl,
   get_on_empty_networkIssued s.cacheTTL path qs t0 t1 net2,
   get_on_empty_networkIssued s.cacheTTL path qs t0 t1 net2,
   get_on_empty_networkIssued s.cacheTTL path qs t0 t1 net2⟩

/-- C10: a put, post or delete that fails with any error (in particular the
429 error surviving exhausted retries) still leaves the cache empty — the
clear happens before the request — and the next GET on any path issues a
network request. -/
theorem transport_failed_write_still_invalidates (s : APIState α)
    (oracle : Nat → Except HttpErr α) (e : HttpErr) (path qs : String) (t0 t1 : Nat)
    (net2 : Except HttpErr α) :
    ((∀ k, oracle k = Except.error (HttpErr.http 429)) →
      (APIState.put s (request oracle).result).fst = Except.error (HttpErr.http 429) ∧
      (APIState.put s (request oracle).result).snd.cache = []) ∧
    (APIState.put s (Except.error e)).snd.cache = [] ∧
    (APIState.post s (Except.error e)).snd.cache = [] ∧
    (APIState.delete s (Except.error e)).snd.cache = [] ∧
    (APIState.get (APIState.put s (Except.error e)).snd path qs t0 net2 t1).networkIssued
      = true := by
  refine ⟨fun h => ?_, rfl, rfl, rfl,
    get_on_empty_networkIssued s.cacheTTL path qs t0 t1 net2⟩
  rw [request_all_429 oracle h]
  exact ⟨rfl, rfl⟩

theorem transport_failed_write_still_invalidates_witness :
    (APIState.put (⟨[("k", ⟨3, 999⟩)], 60000⟩ : APIState Nat)
        (request (fun _ => Except.error (HttpErr.http 429))).result).fst =
      Except.error (HttpErr.http 429) ∧
    (APIState.put (⟨[("k", ⟨3, 999⟩)], 60000⟩ : APIState Nat)
        (request (fun _ => Except.error (HttpErr.http 429))).result).snd.cache = [] :=
  (transport_failed_write_still_invalidates (⟨[("k", ⟨3, 999⟩)], 60000⟩ : APIState Nat)
      (fun _ => Except.error (HttpErr.http 429)) HttpErr.transport "/users" "qs" 0 0
      (Except.ok 0)).1 (fun _ => rfl)

/-- C5: a UUID-shaped input to resolveChannel is returned unchanged with no
channel-list fetch; otherwise, when a case-insensitive exact name match
exists, the identifier of such a matching channel is returned (exact match
wins even if substring matches exist); when no exact match exists the call
fails with the NotFound message carrying the case-insensitive substring
matches as suggestions, falling back to listing all channel names when that
suggestion list is empty. -/
theorem resolver_channel_cases (channels : List HBChannel) (s : String) :
    (isUUID s = true → resolveChannel channels s = (Except.ok s, false)) ∧
    (isUUID s = false → (∃ c ∈ channels, strToLower c.name = strToLower s) →
      ∃ c ∈ channels, strToLower c.name = strToLower s ∧
        resolveChannel channels s = (Except.ok c.id, true)) ∧
    (isUUID s = false → (∀ c ∈ channels, strToLower c.name ≠ strToLower s) →
      resolveChannel channels s =
        (Except.error (channelNotFoundMsg s
          ((channels.filter (fun c => strIncludes (strToLower c.name) (strToLower s))).map
            HBChannel.name)
          (channels.map HBChannel.name)), true)) := by
  refine ⟨fun h => by simp [resolveChannel, h], fun h hex => ?_, fun h hnone => ?_⟩
  · rcases hfind : channels.find? (fun c => strToLower c.name == strToLower s) with _ | c
    · rcases hex with ⟨c, hc, hname⟩
      rw [List.find?_eq_none] at hfind
      exact absurd (by simpa using hname) (by simpa using hfind c hc)
    · refine ⟨c, List.mem_of_find?_eq_some hfind, ?_, ?_⟩
      · have := List.find?_some hfind
        simpa using this
      · simp [resolveChannel, h, hfind]
  · have hfind : channels.find? (fun c => strToLower c.name == strToLower s) = none := by
      rw [List.find?_eq_none]
      intro c hc
      simpa using hnone c hc
    simp [resolveChannel, h, hfind]

theorem resolver_channel_cases_witness :
    resolveChannel [⟨"chan-1", "General"⟩] "aaaaaaaa-0000-0000-0000-000000000009" =
      (Except.ok "aaaaaaaa-0000-0000-0000-000000000009", false) ∧
    resolveChannel [⟨"chan-1", "General"⟩] "events" =
      (Except.error (channelNotFoundMsg "events" [] ["General"]), true) :=
  ⟨(resolver_channel_cases [⟨"chan-1", "General"⟩]
      "aaaaaaaa-0000-0000-0000-000000000009").1 (by decide),
   (resolver_channel_cases [⟨"chan-1", "General"⟩] "events").2.2 (by decide) (by decide)⟩

/-- C4: resolveUser is a three-way case split.  A UUID-shaped input issues
exactly one direct fetch by identifier and returns its outcome.  An input
containing `@` uses the exact-match email endpoint: zero results fail with
NotFound and one-or-more results return the first (never an ambiguity error).
Any other input filters the full user list by case-insensitive substring match
on the name: zero matches fail with NotFound, exactly one match is returned,
and two or more matches fail with the Ambiguous message enumerating every
candidate as "name (email)". -/
theorem resolver_user_cases (dir : UserDirectory) (s : String) :
    (isUUID s = true → resolveUser dir s = (dir.fetchById s, [UserFetch.byId s])) ∧
    (isUUID s = false → s.data.contains '@' = true →
      (dir.findByEmail s = [] →
        resolveUser dir s = (Except.error (userNotFoundEmailMsg s), [UserFetch.byEmail s])) ∧
      (∀ u rest, dir.findByEmail s = u :: rest →
        resolveUser dir s = (Except.ok u, [UserFetch.byEmail s]))) ∧
    (isUUID s = false → s.data.contains '@' = false →
      (dir.allUsers.filter (fun u => strIncludes (strToLower u.name) (strToLower s)) = [] →
        resolveUser dir s = (Except.error (userNotFoundNameMsg s), [UserFetch.userList])) ∧
      (∀ u, dir.allUsers.filter (fun u => strIncludes (strToLower u.name) (strToLower s)) = [u] →
        resolveUser dir s = (Except.ok u, [UserFetch.userList])) ∧
      (∀ ms, dir.allUsers.filter (fun u => strIncludes (strToLower u.name) (strToLower s)) = ms →
        2 ≤ ms.length →
        resolveUser dir s =
          (Except.error (userAmbiguousMsg s ms), [UserFetch.userList]))) := by
  refine ⟨fun h => by unfold resolveUser; rw [h]; exact rfl,
    fun h hat => ⟨fun hnil => ?_, fun u rest hcons => ?_⟩,
    fun h hat => ⟨fun hnil => ?_, fun u hone => ?_, fun ms hms hlen => ?_⟩⟩
  · unfold resolveUser; rw [h, hat, hnil]; exact rfl
  · unfold resolveUser; rw [h, hat, hcons]; exact rfl
  · unfold resolveUser; rw [h, hat, hnil]; exact rfl
  · unfold resolveUser; rw [h, hat, hone]; exact rfl
  · subst hms
    rcases hfil : dir.allUsers.filter (fun u => strIncludes (strToLower u.name) (strToLower s))
      with _ | ⟨u, _ | ⟨v, rest⟩⟩
    · rw [hfil] at hlen; simp at hlen
    · rw [hfil] at hlen; simp at hlen
    · unfold resolveUser; rw [h, hat, hfil]; exact rfl

theorem resolver_user_cases_witness :
    resolveUser alexDir "Alex" =
      (Except.error (userAmbiguousMsg "Alex" [alexChen, alexRivera]), [UserFetch.userList]) ∧
    resolveUser alexDir "alex.chen@example.com" =
      (Except.ok alexChen, [UserFetch.byEmail "alex.chen@example.com"]) ∧
    resolveUser alexDir "aaaaaaaa-0000-0000-0000-000000000001" =
      (alexDir.fetchById "aaaaaaaa-0000-0000-0000-000000000001",
       [UserFetch.byId "aaaaaaaa-0000-0000-0000-000000000001"]) :=
  ⟨((resolver_user_cases alexDir "Alex").2.2 (by decide) (by decide)).2.2
      [alexChen, alexRivera] (by decide) (by decide),
   ((resolver_user_cases alexDir "alex.chen@example.com").2.1 (by decide) (by decide)).2
      alexChen [] (by decide),
   (resolver_user_cases alexDir "aaaaaaaa-0000-0000-0000-000000000001").1 (by decide)⟩

theorem insertSorted_perm (le : a → a → Bool) (x : a) (l : List a) :
    List.Perm (insertSorted le x l) (x :: l) := by
  induction l with
  | nil => exact List.Perm.refl _
  | cons y ys ih =>
    unfold insertSorted
    by_cases h : le x y
    · rw [if_pos h]
    · rw [if_neg h]
      exact (ih.cons y).trans (List.Perm.swap x y ys)

theorem stableSortBy_perm (le : a → a → Bool) (l : List a) :
    List.Perm (stableSortBy le l) l := by
  induction l with
  | nil => exact List.Perm.refl _
  | cons x xs ih =>
    exact (insertSorted_perm le x (stableSortBy le xs)).trans (ih.cons x)

theorem mem_stableSortBy (le : a → a → Bool) (l : List a) (x : a) :
    x ∈ stableSortBy le l ↔ x ∈ l :=
  (stableSortBy_perm le l).mem_iff

theorem insertSorted_pairwise (le : a → a → Bool)
    (htot : ∀ p q, le p q = false → le q p = true)
    (htrans : ∀ p q r, le p q = true → le q r = true → le p r = true)
    (x : a) (l : List a) (hl : List.Pairwise (fun p q => le p q = true) l) :
    List.Pairwise (fun p q => le p q = true) (insertSorted le x l) := by
  induction l with
  | nil => simp [insertSorted]
  | cons y ys ih =>
    rw [List.pairwise_cons] at hl
    unfold insertSorted
    by_cases h : le x y
    · rw [if_pos h]
      refine List.Pairwise.cons ?_ (List.Pairwise.cons hl.1 hl.2)
      intro z hz
      rcases List.mem_cons.mp hz with rfl | hz
      · exact h
      · exact htrans x y z h (hl.1 z hz)
    · rw [if_neg h]
      refine List.Pairwise.cons ?_ (ih hl.2)
      intro z hz
      rcases List.mem_cons.mp ((insertSorted_perm le x ys).mem_iff.mp hz) with hzx | hzys
      · rw [hzx]
        exact htot x y (by simpa using h)
      · exact hl.1 z hzys

theorem stableSortBy_pairwise (le : a → a → Bool)
    (htot : ∀ p q, le p q = false → le q p = true)
    (htrans : ∀ p q r, le p q = true → le q r = true → le p r = true)
    (l : List a) :
    List.Pairwise (fun p q => le p q = true) (stableSortBy le l) := by
  induction l with
  | nil => exact List.Pairwise.nil
  | cons x xs ih => exact insertSorted_pairwise le htot htrans x (stableSortBy le xs) ih

theorem segment_counts_sum (now : Int) (threads : List HBThread) (users : List HBUser) :
    (segmentUsers now threads users Segment.new_members).length +
    (segmentUsers now threads users Segment.active).length +
    (segmentUsers now threads users Segment.at_risk).length +
    (segmentUsers now threads users Segment.churned).length = users.length := by
  induction users with
  | nil => rfl
  | cons u us ih =>
    unfold segmentUsers at ih ⊢
    cases h : segmentOf now threads u <;>
      simp only [List.filter_cons, h, List.length_cons] <;>
      simp <;> omega

/-- C6: in member_segments, each fetched user lands in exactly one of the four
segments new_members, active, at_risk, churned (computed before the per-
segment output limit is applied), and the four reported per-segment counts sum
to the reported total (the number of fetched users). -/
theorem analytics_member_segments_partition (now : Int) (threads : List HBThread)
    (users : List HBUser) :
    (∀ u ∈ users, ∃! s : Segment, u ∈ segmentUsers now threads users s) ∧
    (segmentUsers now threads users Segment.new_members).length +
    (segmentUsers now threads users Segment.active).length +
    (segmentUsers now threads users Segment.at_risk).length +
    (segmentUsers now threads users Segment.churned).length = users.length := by
  refine ⟨fun u hu => ⟨segmentOf now threads u, ?_, fun s hs => ?_⟩,
    segment_counts_sum now threads users⟩
  · simp [segmentUsers, List.mem_filter, hu]
  · have h2 : segmentOf now threads u = s := by simpa using (List.mem_filter.mp hs).2
    exact h2.symm

theorem analytics_member_segments_partition_witness :
    (segmentUsers 10000000000000 [] [alexChen, alexRivera] Segment.new_members).length +
    (segmentUsers 10000000000000 [] [alexChen, alexRivera] Segment.active).length +
    (segmentUsers 10000000000000 [] [alexChen, alexRivera] Segment.at_risk).length +
    (segmentUsers 10000000000000 [] [alexChen, alexRivera] Segment.churned).length = 2 :=
  (analytics_member_segments_partition 10000000000000 [] [alexChen, alexRivera]).2

/-- C7 (claim refuted, code bug): the member_segments code places a user with
no completed lessons and no group memberships into the churned segment even
when that user authored a fetched thread, provided the thread is older than 30
days — contradicting the claim, the spec and the code's own comment that
churned users have no thread activity at all.  Concretely: at `now` = 10^13 ms
a user who authored only the thread "t1" created at epoch 0 is classified
churned while being an author of a fetched thread. -/
theorem member_segments_churned_thread_activity :
    segmentOf 10000000000000 [⟨"t1", "old post", "chan-1", "user-1", 0⟩]
      ⟨"user-1", "u1@example.com", "Old Poster", "member", [], []⟩ = Segment.churned ∧
    hasAnyThreadActivity [⟨"t1", "old post", "chan-1", "user-1", 0⟩] "user-1" = true := by
  constructor
  · rfl
  · rfl

/-- C8: in engagement_scores every user's score equals
3 × threads_authored + 2 × lessons_completed + 5 × events_attended (so 3
threads, 2 completed lessons and 1 attended event yield 18); the output is
sorted descending by score; and the caller limit (default 20) is applied by
taking a prefix of the sorted list of all scored users — after sorting, never
before (the sorted list is a permutation of the full scored list). -/
theorem analytics_engagement_scores (users : List HBUser) (threads : List HBThread)
    (attendance : List (List (Option String))) (limit : Option Nat) :
    (∀ u, (scoreUser threads attendance u).score =
      3 * (scoreUser threads attendance u).threads_authored +
      2 * (scoreUser threads attendance u).lessons_completed +
      5 * (scoreUser threads attendance u).events_attended) ∧
    (∀ u, (scoreUser threads attendance u).threads_authored = 3 →
      (scoreUser threads attendance u).lessons_completed = 2 →
      (scoreUser threads attendance u).events_attended = 1 →
      (scoreUser threads attendance u).score = 18) ∧
    List.Pairwise (fun p q => q.score ≤ p.score)
      (engagementTop users threads attendance limit) ∧
    engagementTop users threads attendance limit =
      (stableSortBy scoreDescLe (engagementScored users threads attendance)).take
        (limit.getD defaultLimit) ∧
    List.Perm (stableSortBy scoreDescLe (engagementScored users threads attendance))
      (engagementScored users threads attendance) := by
  have hformula : ∀ u : HBUser, (scoreUser threads attendance u).score =
      3 * (scoreUser threads attendance u).threads_authored +
      2 * (scoreUser threads attendance u).lessons_completed +
      5 * (scoreUser threads attendance u).events_attended := by
    intro u
    simp only [scoreUser]
    omega
  refine ⟨hformula, fun u h3 h2 h1 => ?_, ?_, rfl,
    stableSortBy_perm scoreDescLe (engagementScored users threads attendance)⟩
  · have := hformula u
    rw [h3, h2, h1] at this
    simpa using this
  · have hp : List.Pairwise (fun p q => scoreDescLe p q = true)
        (stableSortBy scoreDescLe (engagementScored users threads attendance)) := by
      refine stableSortBy_pairwise scoreDescLe ?_ ?_ _
      · intro p q h
        simp only [scoreDescLe, decide_eq_false_iff_not, Nat.not_le] at h
        simp only [scoreDescLe, decide_eq_true_eq]
        omega
      · intro p q r hpq hqr
        simp only [scoreDescLe, decide_eq_true_eq] at hpq hqr ⊢
        omega
    have hsub : List.Pairwise (fun p q => scoreDescLe p q = true)
        (engagementTop users threads attendance limit) :=
      List.Pairwise.sublist (List.take_sublist _ _) hp
    refine hsub.imp ?_
    intro p q h
    simpa [scoreDescLe] using h

/-- Example user with exactly two completed lessons, for concrete scoring. -/
def learnerUser : HBUser :=
  ⟨"user-9", "learner@example.com", "Learner", "member", ["grp-1"],
   [⟨"lesson-1", "2026-01-01"⟩, ⟨"lesson-2", "2026-01-02"⟩]⟩

theorem analytics_engagement_scores_witness :
    (scoreUser
      [⟨"t1", "a", "c1", "user-9", 0⟩, ⟨"t2", "b", "c1", "user-9", 0⟩,
       ⟨"t3", "c", "c1", "user-9", 0⟩]
      [[some "user-9"]] learnerUser).score = 18 :=
  ((analytics_engagement_scores [learnerUser]
      [⟨"t1", "a", "c1", "user-9", 0⟩, ⟨"t2", "b", "c1", "user-9", 0⟩,
       ⟨"t3", "c", "c1", "user-9", 0⟩]
      [[some "user-9"]] none).2.1) learnerUser (by decide) (by decide) (by decide)

theorem channelThreadsEntryOf_ok (fetch : String → Except String (List HBThread))
    (ch : HBChannel) (ts : List HBThread) (h : fetch ch.id = Except.ok ts) :
    channelThreadsEntryOf fetch ch = ⟨ch.name, ch.id, ts⟩ := by
  unfold channelThreadsEntryOf
  rw [h]

theorem channelThreadsEntryOf_err (fetch : String → Except String (List HBThread))
    (ch : HBChannel) (msg : String) (h : fetch ch.id = Except.error msg) :
    channelThreadsEntryOf fetch ch = ⟨ch.name, ch.id, []⟩ := by
  unfold channelThreadsEntryOf
  rw [h]

theorem channelThreadsEntryOf_thread_mem (fetch : String → Except String (List HBThread))
    (ch : HBChannel) (t : HBThread)
    (h : t ∈ (channelThreadsEntryOf fetch ch).threads) :
    ∃ ts, fetch ch.id = Except.ok ts ∧ t ∈ ts ∧
      (channelThreadsEntryOf fetch ch).channel = ch.name := by
  rcases hf : fetch ch.id with msg | ts
  · rw [channelThreadsEntryOf_err fetch ch msg hf] at h
    simp at h
  · rw [channelThreadsEntryOf_ok fetch ch ts hf] at h ⊢
    exact ⟨ts, rfl, h, rfl⟩

theorem dashboardThreadPool_sound (fetch : String → Except String (List HBThread))
    (channels : List HBChannel) :
    ∀ x ∈ dashboardThreadPool fetch channels,
      ∃ ch ∈ channels.take 10, ∃ ts, fetch ch.id = Except.ok ts ∧
        x.thread ∈ ts ∧ x.channelName = ch.name := by
  intro x hx
  unfold dashboardThreadPool at hx
  rcases List.mem_flatMap.mp hx with ⟨ct, hct, hxct⟩
  unfold channelThreadsOf at hct
  rcases List.mem_map.mp hct with ⟨ch, hch, hfc⟩
  rcases List.mem_map.mp hxct with ⟨t, ht, hxt⟩
  subst hfc
  rcases channelThreadsEntryOf_thread_mem fetch ch t ht with ⟨ts, hok, hts, hname⟩
  exact ⟨ch, hch, ts, hok, by rw [← hxt]; exact hts, by rw [← hxt]; exact hname⟩

/-- C9: in the dashboard mode a failure while fetching the threads of one
channel yields an empty thread list for that channel only: the entry for the
failing channel carries no threads, every thread of every succeeding channel
(among the first 10) still reaches the aggregated pool that recent_activity
and the attention list are built from, everything in that pool (and hence
every recent_activity row) comes from a channel whose fetch succeeded, and the
mode still returns a populated payload (its summary reflects the fetched
collections) instead of failing the whole call. -/
theorem dashboard_channel_fault_isolation
    (now : Int) (users : List HBUser) (channels : List HBChannel) (events : List HBEvent)
    (coursesCount : Nat) (notifications : List String)
    (fetch : String → Except String (List HBThread))
    (chB : HBChannel) (e : String)
    (hmem : chB ∈ channels.take 10) (hfail : fetch chB.id = Except.error e) :
    ChannelThreadsEntry.mk chB.name chB.id [] ∈ channelThreadsOf fetch channels ∧
    (∀ ch ∈ channels.take 10, ∀ ts, fetch ch.id = Except.ok ts →
      ∀ t ∈ ts, TaggedThread.mk t ch.name ∈ dashboardThreadPool fetch channels) ∧
    (∀ x ∈ dashboardThreadPool fetch channels,
      ∃ ch ∈ channels.take 10, ∃ ts, fetch ch.id = Except.ok ts ∧
        x.thread ∈ ts ∧ x.channelName = ch.name) ∧
    (∀ row ∈ (handleDashboard now users channels events coursesCount notifications
        fetch).recent_activity,
      ∃ ch ∈ channels.take 10, ∃ ts, fetch ch.id = Except.ok ts ∧
        ∃ t ∈ ts, row.thread_id = t.id ∧ row.channel = ch.name) ∧
    (handleDashboard now users channels events coursesCount notifications
        fetch).summary.total_members = users.length ∧
    (handleDashboard now users channels events coursesCount notifications
        fetch).summary.active_channels = channels.length := by
  refine ⟨?_, ?_, dashboardThreadPool_sound fetch channels, ?_, rfl, rfl⟩
  · unfold channelThreadsOf
    refine List.mem_map.mpr ⟨chB, hmem, ?_⟩
    exact channelThreadsEntryOf_err fetch chB e hfail
  · intro ch hch ts hts t ht
    unfold dashboardThreadPool
    refine List.mem_flatMap.mpr ⟨⟨ch.name, ch.id, ts⟩, ?_, ?_⟩
    · unfold channelThreadsOf
      exact List.mem_map.mpr ⟨ch, hch, channelThreadsEntryOf_ok fetch ch ts hts⟩
    · exact List.mem_map.mpr ⟨t, ht, rfl⟩
  · intro row hrow
    have hra : (handleDashboard now users channels events coursesCount notifications
        fetch).recent_activity = recentActivityOf now users fetch channels := rfl
    rw [hra] at hrow
    unfold recentActivityOf at hrow
    rcases List.mem_map.mp hrow with ⟨x, hx, hproj⟩
    have hxpool : x ∈ dashboardThreadPool fetch channels := by
      have h1 : x ∈ stableSortBy createdDescLe (dashboardThreadPool fetch channels) :=
        (List.take_sublist _ _).subset hx
      exact (mem_stableSortBy createdDescLe _ x).mp h1
    rcases dashboardThreadPool_sound fetch channels x hxpool with ⟨ch, hch, ts, hok, hts, hname⟩
    refine ⟨ch, hch, ts, hok, x.thread, hts, ?_, ?_⟩
    · rw [← hproj]
    · rw [← hproj]
      exact hname

theorem dashboard_channel_fault_isolation_witness :
    ChannelThreadsEntry.mk "Beta" "chan-B" [] ∈ channelThreadsOf demoFetch demoChannels :=
  (dashboard_channel_fault_isolation 10000000000000 [] demoChannels [] 0 [] demoFetch
      ⟨"chan-B", "Beta"⟩ "forbidden" (by decide) rfl).1
